import Mathlib

/-!
Verification development for the pasetoD v1 protocol provider
(`src/protocol/v1.ts`).

The repository ships one source file, `src/protocol/v1.ts`, which
orchestrates token construction and verification for the v1/public PASETO
provider.  Its collaborators (`util/pae.ts`, `util/packer.ts`,
`util/raw_parser.ts`, `util/key.ts`, `util/validation.ts`,
`error/mod.ts`, `protocol/common.ts`) are not part of the source tree and
are modelled from the specification where noted.  The host cryptographic
engine (`crypto.subtle`) and the host JSON serializer are external
collaborators and enter the model as explicit parameters.

Strings are modelled as lists of byte values (`List Nat`); the tokens in
play are ASCII, so this coincides with their UTF-8 form.
-/

namespace PasetoD

/-- Byte strings: JavaScript `Uint8Array`s and (UTF-8 views of) strings. -/
abbrev Bytes := List Nat

/-- ASCII code of the dot separator of the token wire format. -/
def dotByte : Nat := 46

/-- The bytes of the string "v1" (the provider version set by the
`V1Public`/`V1Local` constructors). -/
def v1Bytes : Bytes := [118, 49]

/-- The bytes of the string "public" (the purpose set by the `V1Public`
constructor). -/
def publicBytes : Bytes := [112, 117, 98, 108, 105, 99]

/-- The bytes of the string "local" (the purpose set by the `V1Local`
constructor). -/
def localBytes : Bytes := [108, 111, 99, 97, 108]

/-- The bytes of the header string "v1.public" built by `V1Public.sign`
and `V1Public.verify` as `${this.version}.${this.purpose}`. -/
def headerV1Public : Bytes := v1Bytes ++ dotByte :: publicBytes

/-- Modelled from the spec: the error taxonomy of section 7
(`error/mod.ts` is not in the source tree).  `providerState` is raised by
`generateKey` on an occupied key slot, `keyPurpose` by the key purpose
guard, `malformedToken` by the raw-token parser, `headerMismatch` by the
header checks, `invalidMessage` by message validation, `claims` by claims
validation, and `verification` is the single content-independent
signature failure. -/
inductive PasetoError where
  | providerState
  | keyPurpose
  | malformedToken
  | headerMismatch
  | invalidMessage
  | claims
  | verification
deriving DecidableEq, Repr

/-- The `type` field of a WebCrypto `CryptoKey`. -/
inductive KeyType where
  | pub
  | priv
  | secret
deriving DecidableEq, Repr

/-- A WebCrypto key usage. -/
inductive KeyUsage where
  | sign
  | verify
  | encrypt
  | decrypt
deriving DecidableEq, Repr

/-- The algorithm family a `CryptoKey` is bound to; v1/public keys are
RSA-PSS, v1/local secret keys are AES-CTR. -/
inductive KeyAlg where
  | rsaPss
  | aesCtr
deriving DecidableEq, Repr

/-- Modelled from the spec: a host-managed opaque key handle (`CryptoKey`)
with its type, algorithm and usage tags; the raw key material is opaque
and is represented by an identifier. -/
structure CryptoKey where
  type : KeyType
  algorithm : KeyAlg
  usages : List KeyUsage
  material : Nat
deriving DecidableEq, Repr

/-- The `V1PublicKeyPair` interface of `src/protocol/v1.ts`: a public
verification key together with a private signing key. -/
structure V1PublicKeyPair where
  publicKey : CryptoKey
  privateKey : CryptoKey
deriving DecidableEq, Repr

/-- JSON-compatible values: the message/claims payloads.  Cyclic values
are unrepresentable in an inductive type, matching the "plain
serializable object" invariant. -/
inductive JVal where
  | jnull
  | jbool (b : Bool)
  | jnum (n : Nat)
  | jstr (s : Bytes)
  | jarr (xs : List JVal)
  | jobj (fields : List (Bytes × JVal))

/-- The host JSON facility (`JSON.stringify` / `JSON.parse`), an external
collaborator of `util/validation.ts`: a deterministic byte serialization
of claims and a structural parser. -/
structure HostJson where
  stringify : JVal → Bytes
  parse : Bytes → Option JVal

/-- The host cryptographic engine (`crypto.subtle`) for the RSA-PSS
parameters of v1/public, an external collaborator: a deterministic
signing function and a signature check. -/
structure CryptoEngine where
  sign : Bytes → Bytes
  verify : Bytes → Bytes → Bool

/-- An 8-byte little-endian unsigned encoding of `n` (the length/count
fields of PAE). -/
def le64 (n : Nat) : Bytes :=
  [n % 256, n / 256 % 256, n / 65536 % 256, n / 16777216 % 256,
   n / 4294967296 % 256, n / 1099511627776 % 256,
   n / 281474976710656 % 256, n / 72057594037927936 % 256]

/-- One part of a PAE encoding: the part's length as 8-byte little-endian
followed by its raw bytes. -/
def paePart (p : Bytes) : Bytes := le64 p.length ++ p

/-- Modelled from the spec (section 4.3; `util/pae.ts` is not in the
source tree): pre-authentication encoding writes the count of parts as an
8-byte little-endian unsigned integer, then each part's length as 8-byte
little-endian followed by its raw bytes, concatenated in order. -/
def PAE (parts : List Bytes) : Bytes :=
  le64 parts.length ++ (parts.map paePart).flatten

/-- The base64url alphabet: ASCII code of digit `n % 64`. -/
def b64char (n : Nat) : Nat :=
  if n < 26 then 65 + n
  else if n < 52 then 97 + (n - 26)
  else if n < 62 then 48 + (n - 52)
  else if n = 62 then 45
  else 95

/-- Partial inverse of `b64char`: the 6-bit value of a base64url digit,
`none` on a byte outside the alphabet. -/
def b64inv (c : Nat) : Option Nat :=
  if 65 ≤ c ∧ c ≤ 90 then some (c - 65)
  else if 97 ≤ c ∧ c ≤ 122 then some (c - 71)
  else if 48 ≤ c ∧ c ≤ 57 then some (c + 4)
  else if c = 45 then some 62
  else if c = 95 then some 63
  else none

/-- Unpadded base64url encoding of a byte string, three input bytes per
four output digits. -/
def b64encode : Bytes → Bytes
  | [] => []
  | [a] => [b64char (a / 4), b64char (a % 4 * 16)]
  | [a, b] => [b64char (a / 4), b64char (a % 4 * 16 + b / 16), b64char (b % 16 * 4)]
  | a :: b :: c :: rest =>
      b64char (a / 4) :: b64char (a % 4 * 16 + b / 16) ::
      b64char (b % 16 * 4 + c / 64) :: b64char (c % 64) :: b64encode rest

/-- Modelled from the spec: unpadded base64url decoding, failing on
invalid encodings (bytes outside the alphabet, impossible lengths, and
non-canonical trailing bits). -/
def b64decode : Bytes → Option Bytes
  | [] => some []
  | [_] => none
  | [c1, c2] => do
      let x ← b64inv c1
      let y ← b64inv c2
      if y % 16 = 0 then some [x * 4 + y / 16] else none
  | [c1, c2, c3] => do
      let x ← b64inv c1
      let y ← b64inv c2
      let z ← b64inv c3
      if z % 4 = 0 then some [x * 4 + y / 16, y % 16 * 16 + z / 4] else none
  | c1 :: c2 :: c3 :: c4 :: rest => do
      let x ← b64inv c1
      let y ← b64inv c2
      let z ← b64inv c3
      let w ← b64inv c4
      let tail ← b64decode rest
      some ((x * 4 + y / 16) :: (y % 16 * 16 + z / 4) :: (z % 4 * 64 + w) :: tail)

/-- Split a byte string at every dot, mirroring `rawToken.split(".")`. -/
def splitDots : Bytes → List Bytes
  | [] => [[]]
  | c :: rest =>
      if c = dotByte then [] :: splitDots rest
      else
        match splitDots rest with
        | [] => [[c]]
        | s :: ss => (c :: s) :: ss

/-- Modelled from the spec (section 4.2; `util/key.ts` is not in the
source tree): the key purpose guard fails with `KeyPurposeError` when the
key is absent or its type, usage tags, or algorithm do not match the
requested operation; signing requires a private RSA-PSS signing key and
verification a public RSA-PSS verification key. -/
def checkKeyPurpose (operation : KeyUsage) (key : Option CryptoKey) :
    Except PasetoError Unit :=
  match key with
  | none => .error .keyPurpose
  | some k =>
    match operation with
    | .sign =>
        if k.type = .priv ∧ KeyUsage.sign ∈ k.usages ∧ k.algorithm = .rsaPss
        then .ok () else .error .keyPurpose
    | .verify =>
        if k.type = .pub ∧ KeyUsage.verify ∈ k.usages ∧ k.algorithm = .rsaPss
        then .ok () else .error .keyPurpose
    | .encrypt =>
        if k.type = .secret ∧ KeyUsage.encrypt ∈ k.usages ∧ k.algorithm = .aesCtr
        then .ok () else .error .keyPurpose
    | .decrypt =>
        if k.type = .secret ∧ KeyUsage.decrypt ∈ k.usages ∧ k.algorithm = .aesCtr
        then .ok () else .error .keyPurpose

/-- Modelled from the spec (section 4.5; `util/validation.ts` is not in
the source tree): message validation rejects any input that is not a
plain object with `InvalidMessageError` and otherwise returns the host's
deterministic byte serialization. -/
def validateMessage (J : HostJson) (message : JVal) : Except PasetoError Bytes :=
  match message with
  | .jobj _ => .ok (J.stringify message)
  | _ => .error .invalidMessage

/-- Modelled from the spec (section 4.5): footer validation passes a
string footer through; the model's types already enforce stringness. -/
def validateFooter (footer : Bytes) : Bytes := footer

/-- Modelled from the spec (section 4.5): header validation fails with
`HeaderMismatchError` if either component differs and returns the
rendered `version.purpose` header otherwise. -/
def validateHeader (expectedVersion expectedPurpose actualVersion actualPurpose : Bytes) :
    Except PasetoError Bytes :=
  if expectedVersion = actualVersion ∧ expectedPurpose = actualPurpose
  then .ok (expectedVersion ++ dotByte :: expectedPurpose)
  else .error .headerMismatch

/-- Modelled from the spec (section 4.5): claims validation parses the
payload bytes into a claims mapping with the host JSON parser and fails
with `ClaimsError` when they do not parse as an object. -/
def validateClaims (J : HostJson) (payload : Bytes) : Except PasetoError JVal :=
  match J.parse payload with
  | some (.jobj fields) => .ok (.jobj fields)
  | _ => .error .claims

/-- Modelled from the spec (section 4.4; `util/packer.ts` is not in the
source tree): the packer emits `header "." base64url(payload ‖ signature)`
and appends `"." base64url(footer)` only when the footer is non-empty. -/
def packer (h payload signature footer : Bytes) : Bytes :=
  h ++ dotByte :: b64encode (payload ++ signature) ++
    (if footer = [] then [] else dotByte :: b64encode footer)

/-- The decomposed form of a raw token returned by the parser: the two
header segments, the decoded payload and footer, and the signature
bytes. -/
structure ParsedPasetoToken where
  version : Bytes
  purpose : Bytes
  payload : Bytes
  footer : Bytes
  signatureBytes : Bytes
deriving Repr

/-- Second phase of `_parse_raw_token` once the segment count is known:
header equality, body decoding, length check and the payload/signature
split. -/
def _parse_segments (v p body : Bytes) (fseg : Option Bytes)
    (version purpose : Bytes) (signatureLength : Nat) :
    Except PasetoError ParsedPasetoToken :=
  if v = version ∧ p = purpose then
    match b64decode body with
    | none => .error .malformedToken
    | some bodyBytes =>
      if bodyBytes.length < signatureLength then .error .malformedToken
      else
        let payload := bodyBytes.take (bodyBytes.length - signatureLength)
        let signature := bodyBytes.drop (bodyBytes.length - signatureLength)
        match fseg with
        | none => .ok ⟨v, p, payload, [], signature⟩
        | some fb =>
          match b64decode fb with
          | none => .error .malformedToken
          | some fBytes => .ok ⟨v, p, payload, fBytes, signature⟩
  else .error .headerMismatch

/-- Modelled from the spec (section 4.4; `util/raw_parser.ts` is not in
the source tree): splits on dots; fails with `MalformedTokenError` unless
there are 3 segments (no footer) or 4 (with footer); fails with
`HeaderMismatchError` unless the first two segments literally equal the
provider's version and purpose; base64url-decodes the body, failing on
invalid encoding; fails if the decoded body is shorter than
`signatureLength`; splits the body into payload and trailing signature;
decodes the footer segment when present (empty otherwise). -/
def _parse_raw_token (rawToken : Bytes) (version purpose : Bytes)
    (signatureLength : Nat) : Except PasetoError ParsedPasetoToken :=
  match splitDots rawToken with
  | [v, p, body] => _parse_segments v p body none version purpose signatureLength
  | [v, p, body, fseg] => _parse_segments v p body (some fseg) version purpose signatureLength
  | _ => .error .malformedToken

/-- The result of a successful `verify`: the claims mapping and the
footer string. -/
structure VerifiedPasetoToken where
  message : JVal
  footer : Bytes

/-- The state of a `V1Public` provider instance: the immutable version
and purpose set by the constructor, the one-shot key slot, and the fixed
signature length. -/
structure V1Public where
  version : Bytes
  purpose : Bytes
  keyPair : Option V1PublicKeyPair
  signatureLength : Nat

/-- The `V1Public` constructor: version "v1", purpose "public", an
optional predefined key pair, and signature length 256. -/
def V1Public.new (keyPair : Option V1PublicKeyPair) : V1Public :=
  { version := v1Bytes, purpose := publicBytes, keyPair := keyPair,
    signatureLength := 256 }

/-- `V1Public.generateKey`, run to completion in isolation: throws
`ProviderError` if a key pair already exists, otherwise stores the pair
`fresh` produced by the external engine.  The returned state is the
provider after the call. -/
def V1Public.generateKey (fresh : V1PublicKeyPair) (st : V1Public) :
    Except PasetoError Unit × V1Public :=
  match st.keyPair with
  | some _ => (.error .providerState, st)
  | none => (.ok (), { st with keyPair := some fresh })

/-- `V1Public.sign` from `src/protocol/v1.ts`: guard the key purpose,
validate message and footer, build the `version.purpose` header, PAE
the header, serialized message and footer, sign with the external
engine, and pack the token. -/
def V1Public.sign (E : CryptoEngine) (J : HostJson) (st : V1Public)
    (message : JVal) (footer : Bytes) : Except PasetoError Bytes := do
  let _ ← checkKeyPurpose .sign (st.keyPair.map (·.privateKey))
  let h := st.version ++ dotByte :: st.purpose
  let m ← validateMessage J message
  let u8msg := m
  let f := validateFooter footer
  let m2 := PAE [h, u8msg, f]
  let signature := E.sign m2
  return packer h u8msg signature f

/-- `V1Public.verify` from `src/protocol/v1.ts`: guard the key purpose,
parse the raw token, validate the header, PAE the header, payload and
footer, check the signature with the external engine, and either return
the validated claims with the footer or fail with the single vague
`VerificationError`. -/
def V1Public.verify (E : CryptoEngine) (J : HostJson) (st : V1Public)
    (rawToken : Bytes) : Except PasetoError VerifiedPasetoToken := do
  let _ ← checkKeyPurpose .verify (st.keyPair.map (·.publicKey))
  let parsed ← _parse_raw_token rawToken st.version st.purpose st.signatureLength
  let h ← validateHeader st.version st.purpose parsed.version parsed.purpose
  let f := parsed.footer
  let s := parsed.signatureBytes
  let m := parsed.payload
  let m2 := PAE [h, m, f]
  if E.verify s m2 then do
    let claims ← validateClaims J parsed.payload
    return ⟨claims, parsed.footer⟩
  else .error .verification

/-- `V1Public.sign` as a state transformer: the method body of
`src/protocol/v1.ts` lines 121-138 contains no assignment to `this`, so
the post-state of the call is the receiver unchanged. -/
def V1Public.signSt (E : CryptoEngine) (J : HostJson) (st : V1Public)
    (message : JVal) (footer : Bytes) :
    Except PasetoError Bytes × V1Public :=
  (V1Public.sign E J st message footer, st)

/-- `V1Public.verify` as a state transformer: the method body of
`src/protocol/v1.ts` lines 145-177 contains no assignment to `this`, so
the post-state of the call is the receiver unchanged. -/
def V1Public.verifySt (E : CryptoEngine) (J : HostJson) (st : V1Public)
    (rawToken : Bytes) :
    Except PasetoError VerifiedPasetoToken × V1Public :=
  (V1Public.verify E J st rawToken, st)

/-- The state of a `V1Local` provider instance. -/
structure V1Local where
  version : Bytes
  purpose : Bytes
  secretKey : Option CryptoKey

/-- The `V1Local` constructor: version "v1", purpose "local", optional
predefined secret key. -/
def V1Local.new (secretKey : Option CryptoKey) : V1Local :=
  { version := v1Bytes, purpose := localBytes, secretKey := secretKey }

/-- The bytes of the string "develop an app" printed by the `V1Local`
`encrypt`/`decrypt` stubs. -/
def developAnApp : Bytes :=
  [100, 101, 118, 101, 108, 111, 112, 32, 97, 110, 32, 97, 112, 112]

/-- `V1Local.encrypt` from `src/protocol/v1.ts`: logs "develop an app"
and returns without touching the provider state; the components of the
result are the returned value, the post-state, and the console output. -/
def V1Local.encrypt (st : V1Local) :
    Except PasetoError Unit × V1Local × List Bytes :=
  (.ok (), st, [developAnApp])

/-- `V1Local.decrypt` from `src/protocol/v1.ts`: logs "develop an app"
and returns without touching the provider state; the components of the
result are the returned value, the post-state, and the console output. -/
def V1Local.decrypt (st : V1Local) :
    Except PasetoError Unit × V1Local × List Bytes :=
  (.ok (), st, [developAnApp])

/-- The program counter of one in-flight `generateKey()` call.  The
`async` body of `src/protocol/v1.ts` lines 103-113 runs two atomic
segments separated by the `await` of `crypto.subtle.generateKey`:
`ready` is before the `if (this.keyPair) throw` check, `pending` is
suspended at the `await` with the check already passed, and `done` holds
the call's outcome. -/
inductive GenPhase where
  | ready
  | pending
  | done (r : Except PasetoError Unit)
deriving Repr

/-- Two concurrent `generateKey()` calls, A and B, against one shared
`V1Public` key slot. -/
structure GenRace where
  keyPair : Option V1PublicKeyPair
  taskA : GenPhase
  taskB : GenPhase
deriving Repr

/-- One atomic segment of a `generateKey()` call whose freshly generated
pair will be `fresh`: from `ready`, either throw `ProviderError` if the
slot is occupied or pass the check and suspend at the `await`; from
`pending`, resume and perform the assignment `this.keyPair = ...`. -/
def genStep (fresh : V1PublicKeyPair) (ph : GenPhase)
    (kp : Option V1PublicKeyPair) : GenPhase × Option V1PublicKeyPair :=
  match ph with
  | .ready =>
      match kp with
      | some _ => (.done (.error .providerState), kp)
      | none => (.pending, kp)
  | .pending => (.done (.ok ()), some fresh)
  | .done r => (.done r, kp)

/-- Run one scheduler step of the race: `false` advances call A (with
fresh pair `freshA`), `true` advances call B (with `freshB`). -/
def raceStep (freshA freshB : V1PublicKeyPair) (s : GenRace) (pick : Bool) :
    GenRace :=
  if pick then
    let (ph, kp) := genStep freshB s.taskB s.keyPair
    { s with taskB := ph, keyPair := kp }
  else
    let (ph, kp) := genStep freshA s.taskA s.keyPair
    { s with taskA := ph, keyPair := kp }

/-- Run a whole schedule of the two racing `generateKey()` calls. -/
def runRace (freshA freshB : V1PublicKeyPair) (sched : List Bool)
    (s : GenRace) : GenRace :=
  sched.foldl (raceStep freshA freshB) s

/-- Flip bit `j` of the byte at index `i` of a byte string (out-of-range
indices leave the string unchanged). -/
def flipAt (bs : Bytes) (i j : Nat) : Bytes :=
  bs.set i (bs.getD i 0 ^^^ 2 ^ j)

theorem le64_length (n : Nat) : (le64 n).length = 8 := rfl

theorem le64_inj {m n : Nat} (hm : m < 18446744073709551616)
    (hn : n < 18446744073709551616) (h : le64 m = le64 n) : m = n := by
  simp only [le64, List.cons.injEq, and_true] at h
  omega

theorem flatten_parts_inj :
    ∀ l1 l2 : List Bytes,
      (∀ p ∈ l1, p.length < 18446744073709551616) →
      (∀ p ∈ l2, p.length < 18446744073709551616) →
      l1.length = l2.length →
      (l1.map paePart).flatten = (l2.map paePart).flatten → l1 = l2 := by
  intro l1
  induction l1 with
  | nil =>
    intro l2 _ _ hlen _
    cases l2 with
    | nil => rfl
    | cons q r => simp at hlen
  | cons p rest ih =>
    intro l2 h1 h2 hlen hj
    cases l2 with
    | nil => simp at hlen
    | cons q rest2 =>
      simp only [List.map_cons, List.flatten_cons, paePart, List.append_assoc] at hj
      have h8 : (le64 p.length).length = (le64 q.length).length := by
        simp [le64_length]
      obtain ⟨hlens, htail⟩ := List.append_inj hj h8
      have hpq : p.length = q.length :=
        le64_inj (h1 p (by simp)) (h2 q (by simp)) hlens
      obtain ⟨hpq2, hrest⟩ := List.append_inj htail hpq
      have : rest = rest2 := by
        refine ih rest2 ?_ ?_ ?_ hrest
        · intro x hx; exact h1 x (by simp [hx])
        · intro x hx; exact h2 x (by simp [hx])
        · simpa using hlen
      simp [hpq2, this]

theorem PAE_inj {l1 l2 : List Bytes}
    (hc1 : l1.length < 18446744073709551616)
    (hc2 : l2.length < 18446744073709551616)
    (hp1 : ∀ p ∈ l1, p.length < 18446744073709551616)
    (hp2 : ∀ p ∈ l2, p.length < 18446744073709551616)
    (h : PAE l1 = PAE l2) : l1 = l2 := by
  unfold PAE at h
  obtain ⟨hcount, hparts⟩ := List.append_inj h (by simp [le64_length])
  exact flatten_parts_inj l1 l2 hp1 hp2 (le64_inj hc1 hc2 hcount) hparts

theorem b64inv_b64char : ∀ n, n < 64 → b64inv (b64char n) = some n := by
  decide

theorem b64char_ne_dot (n : Nat) : b64char n ≠ dotByte := by
  unfold b64char dotByte
  split_ifs <;> omega

theorem b64encode_ne_dot : ∀ bs : Bytes, ∀ c ∈ b64encode bs, c ≠ dotByte := by
  intro bs
  induction bs using b64encode.induct with
  | case1 => simp [b64encode]
  | case2 a =>
    simp only [b64encode, List.mem_cons, List.not_mem_nil, or_false]
    rintro c (rfl | rfl) <;> exact b64char_ne_dot _
  | case3 a b =>
    simp only [b64encode, List.mem_cons, List.not_mem_nil, or_false]
    rintro c (rfl | rfl | rfl) <;> exact b64char_ne_dot _
  | case4 a b c rest ih =>
    simp only [b64encode, List.mem_cons]
    rintro x (rfl | rfl | rfl | rfl | hx)
    · exact b64char_ne_dot _
    · exact b64char_ne_dot _
    · exact b64char_ne_dot _
    · exact b64char_ne_dot _
    · exact ih x hx

theorem b64_roundtrip : ∀ bs : Bytes, (∀ b ∈ bs, b < 256) →
    b64decode (b64encode bs) = some bs := by
  intro bs
  induction bs using b64encode.induct with
  | case1 => intro _; rfl
  | case2 a =>
    intro h
    have ha : a < 256 := h a (by simp)
    simp only [b64encode, b64decode]
    rw [b64inv_b64char _ (by omega), b64inv_b64char _ (by omega)]
    simp only [Bind.bind, Option.bind]
    rw [if_pos (by omega)]
    congr 1
    simp
    omega
  | case3 a b =>
    intro h
    have ha : a < 256 := h a (by simp)
    have hb : b < 256 := h b (by simp)
    simp only [b64encode, b64decode]
    rw [b64inv_b64char _ (by omega), b64inv_b64char _ (by omega),
      b64inv_b64char _ (by omega)]
    simp only [Bind.bind, Option.bind]
    rw [if_pos (by omega)]
    congr 1
    simp only [List.cons.injEq, and_true]
    constructor
    · omega
    · omega
  | case4 a b c rest ih =>
    intro h
    have ha : a < 256 := h a (by simp)
    have hb : b < 256 := h b (by simp)
    have hc : c < 256 := h c (by simp)
    have hrest : ∀ x ∈ rest, x < 256 := fun x hx => h x (by simp [hx])
    simp only [b64encode, b64decode]
    rw [b64inv_b64char _ (by omega), b64inv_b64char _ (by omega),
      b64inv_b64char _ (by omega), b64inv_b64char _ (by omega)]
    simp only [Bind.bind, Option.bind]
    rw [ih hrest]
    simp only [Bind.bind, Option.bind]
    congr 1
    simp only [List.cons.injEq, and_true]
    refine ⟨by omega, by omega, by omega⟩

theorem splitDots_append_dot (xs ys : Bytes) (h : ∀ c ∈ xs, c ≠ dotByte) :
    splitDots (xs ++ dotByte :: ys) = xs :: splitDots ys := by
  induction xs with
  | nil => simp [splitDots]
  | cons c rest ih =>
    have hstep : (c :: rest) ++ dotByte :: ys = c :: (rest ++ dotByte :: ys) := rfl
    rw [hstep, splitDots]
    rw [if_neg (h c (by simp))]
    rw [ih (fun x hx => h x (by simp [hx]))]

theorem splitDots_no_dot (xs : Bytes) (h : ∀ c ∈ xs, c ≠ dotByte) :
    splitDots xs = [xs] := by
  induction xs with
  | nil => rfl
  | cons c rest ih =>
    simp only [splitDots]
    rw [if_neg (h c (by simp))]
    rw [ih (fun x hx => h x (by simp [hx]))]

theorem v1Bytes_no_dot : ∀ c ∈ v1Bytes, c ≠ dotByte := by decide

theorem publicBytes_no_dot : ∀ c ∈ publicBytes, c ≠ dotByte := by decide

theorem splitDots_packer (pl sig f : Bytes) :
    splitDots (packer headerV1Public pl sig f) =
      if f = [] then [v1Bytes, publicBytes, b64encode (pl ++ sig)]
      else [v1Bytes, publicBytes, b64encode (pl ++ sig), b64encode f] := by
  have hshape : packer headerV1Public pl sig f =
      v1Bytes ++ dotByte :: (publicBytes ++ dotByte ::
        (b64encode (pl ++ sig) ++
          (if f = [] then [] else dotByte :: b64encode f))) := by
    simp [packer, headerV1Public]
  rw [hshape]
  rw [splitDots_append_dot _ _ v1Bytes_no_dot]
  rw [splitDots_append_dot _ _ publicBytes_no_dot]
  by_cases hf : f = []
  · rw [if_pos hf, if_pos hf, List.append_nil]
    rw [splitDots_no_dot _ (b64encode_ne_dot _)]
  · rw [if_neg hf, if_neg hf]
    rw [splitDots_append_dot _ _ (b64encode_ne_dot _)]
    rw [splitDots_no_dot _ (b64encode_ne_dot _)]

theorem parse_packer (pl sig f : Bytes)
    (hpl : ∀ b ∈ pl, b < 256) (hsig : ∀ b ∈ sig, b < 256)
    (hf : ∀ b ∈ f, b < 256) (hlen : sig.length = 256) :
    _parse_raw_token (packer headerV1Public pl sig f) v1Bytes publicBytes 256 =
      .ok ⟨v1Bytes, publicBytes, pl, f, sig⟩ := by
  have hbody : b64decode (b64encode (pl ++ sig)) = some (pl ++ sig) := by
    refine b64_roundtrip _ ?_
    intro b hb
    rcases List.mem_append.mp hb with h | h
    · exact hpl b h
    · exact hsig b h
  have hnotlt : ¬ (pl ++ sig).length < 256 := by simp [hlen]
  have hsub : (pl ++ sig).length - 256 = pl.length := by simp [hlen]
  unfold _parse_raw_token
  rw [splitDots_packer]
  by_cases hfe : f = []
  · rw [if_pos hfe]
    simp only [_parse_segments, and_self, if_true, hbody, hnotlt, if_false,
      hsub, List.take_left, List.drop_left]
    subst hfe
    rfl
  · rw [if_neg hfe]
    simp only [_parse_segments, and_self, if_true, hbody, hnotlt, if_false,
      hsub, List.take_left, List.drop_left, b64_roundtrip f hf]

/-- A key pair slot fit for `sign`: a private RSA-PSS key tagged for
signing, as required by the key purpose guard. -/
def ValidSigningKey (k : CryptoKey) : Prop :=
  k.type = .priv ∧ KeyUsage.sign ∈ k.usages ∧ k.algorithm = .rsaPss

/-- A key pair slot fit for `verify`: a public RSA-PSS key tagged for
verification, as required by the key purpose guard. -/
def ValidVerifyKey (k : CryptoKey) : Prop :=
  k.type = .pub ∧ KeyUsage.verify ∈ k.usages ∧ k.algorithm = .rsaPss

theorem checkKeyPurpose_sign_ok {k : CryptoKey} (h : ValidSigningKey k) :
    checkKeyPurpose .sign (some k) = .ok () := by
  unfold checkKeyPurpose
  exact if_pos h

theorem checkKeyPurpose_verify_ok {k : CryptoKey} (h : ValidVerifyKey k) :
    checkKeyPurpose .verify (some k) = .ok () := by
  unfold checkKeyPurpose
  exact if_pos h

theorem sign_ok (E : CryptoEngine) (J : HostJson) (kp : V1PublicKeyPair)
    (entries : List (Bytes × JVal)) (f : Bytes)
    (hk : ValidSigningKey kp.privateKey) :
    V1Public.sign E J (V1Public.new (some kp)) (.jobj entries) f =
      .ok (packer headerV1Public (J.stringify (.jobj entries))
        (E.sign (PAE [headerV1Public, J.stringify (.jobj entries), f])) f) := by
  unfold V1Public.sign
  simp [V1Public.new, checkKeyPurpose_sign_ok hk, validateMessage,
    validateFooter, headerV1Public, Bind.bind, Except.bind]
  rfl

theorem verify_packer (E : CryptoEngine) (J : HostJson) (kp : V1PublicKeyPair)
    (pl sig f : Bytes) (hk : ValidVerifyKey kp.publicKey)
    (hpl : ∀ b ∈ pl, b < 256) (hsig : ∀ b ∈ sig, b < 256)
    (hf : ∀ b ∈ f, b < 256) (hlen : sig.length = 256) :
    V1Public.verify E J (V1Public.new (some kp)) (packer headerV1Public pl sig f) =
      if E.verify sig (PAE [headerV1Public, pl, f]) then
        match validateClaims J pl with
        | .ok c => .ok ⟨c, f⟩
        | .error e => .error e
      else .error .verification := by
  unfold V1Public.verify
  have hparse : _parse_raw_token (packer headerV1Public pl sig f)
      (V1Public.new (some kp)).version (V1Public.new (some kp)).purpose
      (V1Public.new (some kp)).signatureLength =
      .ok ⟨v1Bytes, publicBytes, pl, f, sig⟩ :=
    parse_packer pl sig f hpl hsig hf hlen
  rw [hparse]
  simp [V1Public.new, checkKeyPurpose_verify_ok hk, validateHeader,
    headerV1Public, Bind.bind, Except.bind]
  split
  · cases validateClaims J pl <;> rfl
  · rfl

/-- C1: for every message that is a plain serializable object and every
string footer, on a `V1Public` provider holding a valid v1/public key
pair, `verify (sign message footer)` succeeds and returns exactly the
message and the footer.  The external primitives are assumed correct:
the engine's signatures are 256 bytes of valid byte values and its
`verify` accepts the genuine signature of the signed pre-authentication
encoding, and the host JSON parser inverts the host serialization on
this message; footer and serialization are byte strings. -/
theorem v1public_sign_verify_round_trip
    (E : CryptoEngine) (J : HostJson) (kp : V1PublicKeyPair)
    (entries : List (Bytes × JVal)) (f : Bytes)
    (hks : ValidSigningKey kp.privateKey) (hkv : ValidVerifyKey kp.publicKey)
    (hJ : J.parse (J.stringify (.jobj entries)) = some (.jobj entries))
    (hJv : ∀ b ∈ J.stringify (.jobj entries), b < 256)
    (hf : ∀ b ∈ f, b < 256)
    (hslen : (E.sign (PAE [headerV1Public, J.stringify (.jobj entries), f])).length = 256)
    (hsv : ∀ b ∈ E.sign (PAE [headerV1Public, J.stringify (.jobj entries), f]), b < 256)
    (hcorrect : E.verify (E.sign (PAE [headerV1Public, J.stringify (.jobj entries), f]))
      (PAE [headerV1Public, J.stringify (.jobj entries), f]) = true) :
    ∃ token : Bytes,
      V1Public.sign E J (V1Public.new (some kp)) (.jobj entries) f = .ok token ∧
      V1Public.verify E J (V1Public.new (some kp)) token =
        .ok ⟨.jobj entries, f⟩ := by
  refine ⟨_, sign_ok E J kp entries f hks, ?_⟩
  rw [verify_packer E J kp (J.stringify (.jobj entries)) _ f hkv hJv hsv hf hslen]
  rw [if_pos hcorrect]
  simp [validateClaims, hJ]

instance (k : CryptoKey) : Decidable (ValidSigningKey k) := by
  unfold ValidSigningKey
  infer_instance

instance (k : CryptoKey) : Decidable (ValidVerifyKey k) := by
  unfold ValidVerifyKey
  infer_instance

/-- A concrete private signing key for witnesses. -/
def testPrivateKey : CryptoKey := ⟨.priv, .rsaPss, [.sign], 1⟩

/-- A concrete public verification key for witnesses. -/
def testPublicKey : CryptoKey := ⟨.pub, .rsaPss, [.verify], 2⟩

/-- A concrete valid v1/public key pair for witnesses. -/
def testKeyPair : V1PublicKeyPair := ⟨testPublicKey, testPrivateKey⟩

/-- A concrete host JSON facility whose parser inverts its serializer at
the empty object. -/
def testHostJson : HostJson := ⟨fun _ => [123, 125], fun _ => some (.jobj [])⟩

/-- A concrete engine accepting everything, with 256-byte signatures. -/
def testEngine : CryptoEngine := ⟨fun _ => List.replicate 256 0, fun _ _ => true⟩

set_option maxRecDepth 8192 in
/-- Witness for C1 at the empty object, footer "f", and the concrete
test fixtures. -/
theorem v1public_sign_verify_round_trip_witness :
    ∃ token : Bytes,
      V1Public.sign testEngine testHostJson (V1Public.new (some testKeyPair))
        (.jobj []) [102] = .ok token ∧
      V1Public.verify testEngine testHostJson (V1Public.new (some testKeyPair))
        token = .ok ⟨.jobj [], [102]⟩ :=
  v1public_sign_verify_round_trip testEngine testHostJson testKeyPair [] [102]
    (by decide) (by decide) rfl (by decide) (by decide)
    (by simp only [testEngine, List.length_replicate])
    (by simp [testEngine, List.mem_replicate]) rfl

/-- C2: the PAE encoding is injective on ordered lists of byte buffers:
any two distinct part-sequences produce distinct output buffers, and in
particular no two distinct ordered splits of the same concatenated bytes
collide ([a, b] versus [a ++ b]).  The bounds 2^64 on the part count and
the part lengths are the domain of PAE's 8-byte little-endian fields;
every buffer constructible in the host runtime (at most 2^53 - 1
elements) lies far below them. -/
theorem PAE_injective_on_part_sequences :
    (∀ l1 l2 : List Bytes,
      l1.length < 18446744073709551616 → l2.length < 18446744073709551616 →
      (∀ p ∈ l1, p.length < 18446744073709551616) →
      (∀ p ∈ l2, p.length < 18446744073709551616) →
      l1 ≠ l2 → PAE l1 ≠ PAE l2) ∧
    (∀ a b : Bytes, a.length + b.length < 18446744073709551616 →
      PAE [a, b] ≠ PAE [a ++ b]) := by
  constructor
  · intro l1 l2 hc1 hc2 hp1 hp2 hne h
    exact hne (PAE_inj hc1 hc2 hp1 hp2 h)
  · intro a b hab h
    have hne : ([a, b] : List Bytes) ≠ [a ++ b] := by
      intro hcontra
      have := congrArg List.length hcontra
      simp at this
    have hp1 : ∀ p ∈ ([a, b] : List Bytes), p.length < 18446744073709551616 := by
      intro p hp
      simp only [List.mem_cons, List.not_mem_nil, or_false] at hp
      rcases hp with rfl | rfl
      · omega
      · omega
    have hp2 : ∀ p ∈ ([a ++ b] : List Bytes), p.length < 18446744073709551616 := by
      intro p hp
      simp only [List.mem_cons, List.not_mem_nil, or_false] at hp
      subst hp
      simp only [List.length_append]
      omega
    exact hne (PAE_inj (by norm_num) (by norm_num) hp1 hp2 h)

/-- Witness for C2: a two-part sequence differs in encoding both from
its permutation and from the concatenated single-part split. -/
theorem PAE_injective_on_part_sequences_witness :
    PAE [[1], [2]] ≠ PAE [[2], [1]] ∧ PAE [[1], [2]] ≠ PAE [[1] ++ [2]] :=
  ⟨PAE_injective_on_part_sequences.1 [[1], [2]] [[2], [1]]
      (by decide) (by decide) (by decide) (by decide) (by decide),
    PAE_injective_on_part_sequences.2 [1] [2] (by decide)⟩

theorem flipAt_length (bs : Bytes) (i j : Nat) :
    (flipAt bs i j).length = bs.length := List.length_set bs i _

theorem flipAt_valid {bs : Bytes} (hv : ∀ b ∈ bs, b < 256) {j : Nat}
    (hj : j < 8) (i : Nat) : ∀ b ∈ flipAt bs i j, b < 256 := by
  intro b hb
  rcases List.mem_or_eq_of_mem_set hb with h | rfl
  · exact hv b h
  · have hd : bs.getD i 0 < 256 := by
      by_cases hi : i < bs.length
      · rw [List.getD_eq_getElem bs 0 hi]
        exact hv _ (List.getElem_mem hi)
      · rw [List.getD_eq_default bs 0 (by omega)]
        omega
    have h2 : (2 : Nat) ^ j < 256 := by
      calc (2 : Nat) ^ j ≤ 2 ^ 7 := Nat.pow_le_pow_right (by norm_num) (by omega)
      _ < 256 := by norm_num
    have hx := Nat.xor_lt_two_pow (n := 8)
      (x := bs.getD i 0) (y := 2 ^ j) (by simpa using hd) (by simpa using h2)
    simpa using hx

theorem flipAt_ne {bs : Bytes} {i j : Nat} (hi : i < bs.length) :
    flipAt bs i j ≠ bs := by
  intro h
  have hset : i < (flipAt bs i j).length := by
    rw [flipAt_length]
    exact hi
  have e1 : (flipAt bs i j).getD i 0 = bs.getD i 0 ^^^ 2 ^ j := by
    rw [List.getD_eq_getElem _ 0 hset]
    exact List.getElem_set_self _
  have e2 : (flipAt bs i j).getD i 0 = bs.getD i 0 := by rw [h]
  rw [e2] at e1
  have hp : (2 : Nat) ^ j = 0 := by
    have h3 : (2 : Nat) ^ j = (bs.getD i 0 ^^^ bs.getD i 0) ^^^ 2 ^ j := by
      rw [Nat.xor_self, Nat.zero_xor]
    rw [Nat.xor_assoc, ← e1, Nat.xor_self] at h3
    exact h3
  simp at hp

/-- C3: for every valid token produced by `sign` on a v1/public
provider, flipping any single bit of its payload component, of its
signature component, or of its footer component (the token re-framed
around the flipped component) makes `verify` fail, and the failure is
always the single content-independent `VerificationError`; the same
uniform failure occurs when the genuine token is checked with a wrong
key.  The engine hypothesis `honly` is the standard idealization of an
unforgeable signature scheme that has signed exactly this one message:
its verifier accepts exactly the genuine pre-authentication encoding
paired with its genuine signature. -/
theorem v1public_verify_tamper_detection
    (E : CryptoEngine) (J : HostJson) (kp : V1PublicKeyPair)
    (entries : List (Bytes × JVal)) (f : Bytes)
    (hkv : ValidVerifyKey kp.publicKey)
    (hJv : ∀ b ∈ J.stringify (.jobj entries), b < 256)
    (hfv : ∀ b ∈ f, b < 256)
    (hmlen : (J.stringify (.jobj entries)).length < 18446744073709551616)
    (hflen : f.length < 18446744073709551616)
    (hslen : (E.sign (PAE [headerV1Public, J.stringify (.jobj entries), f])).length = 256)
    (hsv : ∀ b ∈ E.sign (PAE [headerV1Public, J.stringify (.jobj entries), f]), b < 256)
    (honly : ∀ s m2, E.verify s m2 = true →
      m2 = PAE [headerV1Public, J.stringify (.jobj entries), f] ∧
      s = E.sign (PAE [headerV1Public, J.stringify (.jobj entries), f])) :
    (∀ i j, i < (J.stringify (.jobj entries)).length → j < 8 →
      V1Public.verify E J (V1Public.new (some kp))
        (packer headerV1Public (flipAt (J.stringify (.jobj entries)) i j)
          (E.sign (PAE [headerV1Public, J.stringify (.jobj entries), f])) f) =
        .error .verification) ∧
    (∀ i j, i < 256 → j < 8 →
      V1Public.verify E J (V1Public.new (some kp))
        (packer headerV1Public (J.stringify (.jobj entries))
          (flipAt (E.sign (PAE [headerV1Public, J.stringify (.jobj entries), f])) i j)
          f) =
        .error .verification) ∧
    (∀ i j, i < f.length → j < 8 →
      V1Public.verify E J (V1Public.new (some kp))
        (packer headerV1Public (J.stringify (.jobj entries))
          (E.sign (PAE [headerV1Public, J.stringify (.jobj entries), f]))
          (flipAt f i j)) =
        .error .verification) ∧
    (∀ (E2 : CryptoEngine) (kp2 : V1PublicKeyPair), ValidVerifyKey kp2.publicKey →
      E2.verify (E.sign (PAE [headerV1Public, J.stringify (.jobj entries), f]))
        (PAE [headerV1Public, J.stringify (.jobj entries), f]) = false →
      V1Public.verify E2 J (V1Public.new (some kp2))
        (packer headerV1Public (J.stringify (.jobj entries))
          (E.sign (PAE [headerV1Public, J.stringify (.jobj entries), f])) f) =
        .error .verification) := by
  have hhdr : headerV1Public.length < 18446744073709551616 := by decide
  refine ⟨?_, ?_, ?_, ?_⟩
  · intro i j hi hj
    have hv' : ∀ b ∈ flipAt (J.stringify (.jobj entries)) i j, b < 256 :=
      flipAt_valid hJv hj i
    rw [verify_packer E J kp _ _ f hkv hv' hsv hfv hslen]
    have hfalse : E.verify (E.sign (PAE [headerV1Public, J.stringify (.jobj entries), f]))
        (PAE [headerV1Public, flipAt (J.stringify (.jobj entries)) i j, f]) = false := by
      cases hEv : E.verify (E.sign (PAE [headerV1Public, J.stringify (.jobj entries), f]))
          (PAE [headerV1Public, flipAt (J.stringify (.jobj entries)) i j, f]) with
      | false => rfl
      | true =>
        obtain ⟨hm, -⟩ := honly _ _ hEv
        have hlists := PAE_inj (by norm_num) (by norm_num)
          (by
            intro p hp
            simp only [List.mem_cons, List.not_mem_nil, or_false] at hp
            rcases hp with rfl | rfl | rfl
            · exact hhdr
            · rw [flipAt_length]; exact hmlen
            · exact hflen)
          (by
            intro p hp
            simp only [List.mem_cons, List.not_mem_nil, or_false] at hp
            rcases hp with rfl | rfl | rfl
            · exact hhdr
            · exact hmlen
            · exact hflen)
          hm
        simp only [List.cons.injEq, and_true, true_and] at hlists
        exact absurd hlists (flipAt_ne hi)
    rw [hfalse]
    rfl
  · intro i j hi hj
    have hi' : i < (E.sign (PAE [headerV1Public, J.stringify (.jobj entries), f])).length := by
      omega
    have hv' : ∀ b ∈ flipAt (E.sign (PAE [headerV1Public, J.stringify (.jobj entries), f])) i j,
        b < 256 := flipAt_valid hsv hj i
    have hl' : (flipAt (E.sign (PAE [headerV1Public, J.stringify (.jobj entries), f])) i j).length
        = 256 := by
      rw [flipAt_length, hslen]
    rw [verify_packer E J kp _ _ f hkv hJv hv' hfv hl']
    have hfalse : E.verify
        (flipAt (E.sign (PAE [headerV1Public, J.stringify (.jobj entries), f])) i j)
        (PAE [headerV1Public, J.stringify (.jobj entries), f]) = false := by
      cases hEv : E.verify
          (flipAt (E.sign (PAE [headerV1Public, J.stringify (.jobj entries), f])) i j)
          (PAE [headerV1Public, J.stringify (.jobj entries), f]) with
      | false => rfl
      | true =>
        obtain ⟨-, hs⟩ := honly _ _ hEv
        exact absurd hs (flipAt_ne hi')
    rw [hfalse]
    rfl
  · intro i j hi hj
    have hv' : ∀ b ∈ flipAt f i j, b < 256 := flipAt_valid hfv hj i
    rw [verify_packer E J kp _ _ _ hkv hJv hsv hv' hslen]
    have hfalse : E.verify (E.sign (PAE [headerV1Public, J.stringify (.jobj entries), f]))
        (PAE [headerV1Public, J.stringify (.jobj entries), flipAt f i j]) = false := by
      cases hEv : E.verify (E.sign (PAE [headerV1Public, J.stringify (.jobj entries), f]))
          (PAE [headerV1Public, J.stringify (.jobj entries), flipAt f i j]) with
      | false => rfl
      | true =>
        obtain ⟨hm, -⟩ := honly _ _ hEv
        have hlists := PAE_inj (by norm_num) (by norm_num)
          (by
            intro p hp
            simp only [List.mem_cons, List.not_mem_nil, or_false] at hp
            rcases hp with rfl | rfl | rfl
            · exact hhdr
            · exact hmlen
            · rw [flipAt_length]; exact hflen)
          (by
            intro p hp
            simp only [List.mem_cons, List.not_mem_nil, or_false] at hp
            rcases hp with rfl | rfl | rfl
            · exact hhdr
            · exact hmlen
            · exact hflen)
          hm
        simp only [List.cons.injEq, and_true, true_and] at hlists
        exact absurd hlists (flipAt_ne hi)
    rw [hfalse]
    rfl
  · intro E2 kp2 hkv2 hne
    rw [verify_packer E2 J kp2 _ _ f hkv2 hJv hsv hfv hslen]
    rw [hne]
    rfl

/-- A concrete engine for the tamper witness: it signs everything with
256 zero bytes and its verifier accepts exactly the genuine pair for the
empty-object message with footer "f". -/
def tamperEngine : CryptoEngine :=
  ⟨fun _ => List.replicate 256 0,
   fun s m2 => decide (m2 = PAE [headerV1Public, [123, 125], [102]] ∧
     s = List.replicate 256 0)⟩

/-- A concrete engine holding a different key pair: it rejects every
signature. -/
def wrongEngine : CryptoEngine :=
  ⟨fun _ => List.replicate 256 1, fun _ _ => false⟩

/-- A second concrete valid v1/public key pair. -/
def testKeyPair2 : V1PublicKeyPair :=
  ⟨⟨.pub, .rsaPss, [.verify], 4⟩, ⟨.priv, .rsaPss, [.sign], 3⟩⟩

set_option maxRecDepth 8192 in
/-- Witness for C3: one concrete flip in each of the payload, signature
and footer components of a concrete valid token, plus a wrong-key check,
each failing with `VerificationError`. -/
theorem v1public_verify_tamper_detection_witness :
    V1Public.verify tamperEngine testHostJson (V1Public.new (some testKeyPair))
      (packer headerV1Public (flipAt (testHostJson.stringify (.jobj [])) 0 0)
        (tamperEngine.sign (PAE [headerV1Public, testHostJson.stringify (.jobj []), [102]]))
        [102]) = .error .verification ∧
    V1Public.verify tamperEngine testHostJson (V1Public.new (some testKeyPair))
      (packer headerV1Public (testHostJson.stringify (.jobj []))
        (flipAt (tamperEngine.sign
          (PAE [headerV1Public, testHostJson.stringify (.jobj []), [102]])) 5 3)
        [102]) = .error .verification ∧
    V1Public.verify tamperEngine testHostJson (V1Public.new (some testKeyPair))
      (packer headerV1Public (testHostJson.stringify (.jobj []))
        (tamperEngine.sign (PAE [headerV1Public, testHostJson.stringify (.jobj []), [102]]))
        (flipAt [102] 0 0)) = .error .verification ∧
    V1Public.verify wrongEngine testHostJson (V1Public.new (some testKeyPair2))
      (packer headerV1Public (testHostJson.stringify (.jobj []))
        (tamperEngine.sign (PAE [headerV1Public, testHostJson.stringify (.jobj []), [102]]))
        [102]) = .error .verification := by
  have h := v1public_verify_tamper_detection tamperEngine testHostJson testKeyPair [] [102]
    (by decide) (by decide) (by decide) (by decide) (by decide)
    (by simp only [tamperEngine, List.length_replicate])
    (by simp [tamperEngine, List.mem_replicate])
    (by intro s m2 hh; exact of_decide_eq_true hh)
  exact ⟨h.1 0 0 (by decide) (by decide), h.2.1 5 3 (by decide) (by decide),
    h.2.2.1 0 0 (by decide) (by decide),
    h.2.2.2 wrongEngine testKeyPair2 (by decide) rfl⟩

theorem parse_packer_wrong_header (pl sig f vers purp : Bytes) (slen : Nat)
    (hne : ¬(v1Bytes = vers ∧ publicBytes = purp)) :
    _parse_raw_token (packer headerV1Public pl sig f) vers purp slen =
      .error .headerMismatch := by
  unfold _parse_raw_token
  rw [splitDots_packer]
  by_cases hfe : f = []
  · rw [if_pos hfe]
    simp only [_parse_segments, if_neg hne]
  · rw [if_neg hfe]
    simp only [_parse_segments, if_neg hne]

/-- C4: a token produced by `sign` for (v1, public) presented to a
provider configured with a different version or purpose fails with
`HeaderMismatchError`, not `VerificationError`.  The header check runs
before any cryptographic verification: the quantification over the
verifying provider's engine shows the outcome never consults it. -/
theorem v1public_verify_header_gate
    (E : CryptoEngine) (J : HostJson) (kp : V1PublicKeyPair)
    (entries : List (Bytes × JVal)) (f : Bytes) (token : Bytes)
    (hks : ValidSigningKey kp.privateKey)
    (hsign : V1Public.sign E J (V1Public.new (some kp)) (.jobj entries) f = .ok token) :
    ∀ (E2 : CryptoEngine) (J2 : HostJson) (kp2 : V1PublicKeyPair)
      (vers purp : Bytes) (slen : Nat),
      ValidVerifyKey kp2.publicKey →
      (vers, purp) ≠ (v1Bytes, publicBytes) →
      V1Public.verify E2 J2 ⟨vers, purp, some kp2, slen⟩ token =
        .error .headerMismatch := by
  intro E2 J2 kp2 vers purp slen hkv2 hne
  rw [sign_ok E J kp entries f hks] at hsign
  have htok : token = packer headerV1Public (J.stringify (.jobj entries))
      (E.sign (PAE [headerV1Public, J.stringify (.jobj entries), f])) f := by
    cases hsign
    rfl
  subst htok
  have hne' : ¬(v1Bytes = vers ∧ publicBytes = purp) := by
    rintro ⟨h1, h2⟩
    exact hne (by rw [← h1, ← h2])
  unfold V1Public.verify
  simp [checkKeyPurpose_verify_ok hkv2,
    parse_packer_wrong_header _ _ _ _ _ _ hne', Bind.bind, Except.bind]

set_option maxRecDepth 8192 in
/-- Witness for C4: the concrete v1/public token checked by a provider
whose purpose is "local" fails with `HeaderMismatchError`. -/
theorem v1public_verify_header_gate_witness :
    V1Public.verify wrongEngine testHostJson
      (⟨v1Bytes, localBytes, some testKeyPair2, 256⟩ : V1Public)
      (packer headerV1Public (testHostJson.stringify (.jobj []))
        (testEngine.sign (PAE [headerV1Public, testHostJson.stringify (.jobj []), [102]]))
        [102]) = .error .headerMismatch :=
  v1public_verify_header_gate testEngine testHostJson testKeyPair [] [102] _
    (by decide) (sign_ok testEngine testHostJson testKeyPair [] [102] (by decide))
    wrongEngine testHostJson testKeyPair2 v1Bytes localBytes 256
    (by decide) (by decide)

/-- C5: on any provider whose key slot is populated — whether at
construction or by a prior `generateKey` — `generateKey` fails with
`ProviderStateError` and leaves the provider, its key included,
unchanged; it succeeds exactly when no key exists, and its sole effect
is then to populate the key slot (a second call afterwards fails and
keeps the first generated pair). -/
theorem v1public_generateKey_one_shot (st : V1Public) (fresh : V1PublicKeyPair) :
    (∀ kp, st.keyPair = some kp →
      V1Public.generateKey fresh st = (.error .providerState, st)) ∧
    (st.keyPair = none →
      V1Public.generateKey fresh st =
        (.ok (), { st with keyPair := some fresh })) ∧
    (∀ fresh2, st.keyPair = none →
      V1Public.generateKey fresh2 (V1Public.generateKey fresh st).2 =
        (.error .providerState, { st with keyPair := some fresh })) := by
  refine ⟨?_, ?_, ?_⟩
  · intro kp hkp
    unfold V1Public.generateKey
    rw [hkp]
  · intro hnone
    unfold V1Public.generateKey
    rw [hnone]
  · intro fresh2 hnone
    unfold V1Public.generateKey
    rw [hnone]

/-- Witness for C5: a populated provider rejects generation and keeps its
pair; an empty provider accepts once and rejects the second call. -/
theorem v1public_generateKey_one_shot_witness :
    V1Public.generateKey testKeyPair2 (V1Public.new (some testKeyPair)) =
      (.error .providerState, V1Public.new (some testKeyPair)) ∧
    V1Public.generateKey testKeyPair (V1Public.new none) =
      (.ok (), { V1Public.new none with keyPair := some testKeyPair }) ∧
    V1Public.generateKey testKeyPair2
        (V1Public.generateKey testKeyPair (V1Public.new none)).2 =
      (.error .providerState, { V1Public.new none with keyPair := some testKeyPair }) :=
  ⟨(v1public_generateKey_one_shot (V1Public.new (some testKeyPair)) testKeyPair2).1
      testKeyPair rfl,
   (v1public_generateKey_one_shot (V1Public.new none) testKeyPair).2.1 rfl,
   (v1public_generateKey_one_shot (V1Public.new none) testKeyPair).2.2 testKeyPair2 rfl⟩

/-- C6 (code bug): `generateKey` checks the key slot and only assigns it
after the `await` of the external key generation, with no guard around
the check-then-write.  In the interleaving where both concurrent calls
pass the occupancy check before either resumes, both calls succeed and
the second assignment silently overwrites the first generated pair —
contradicting the requirement that two overlapping calls can never both
succeed and that a stored key is never silently overwritten. -/
theorem generateKey_race_both_succeed :
    runRace testKeyPair testKeyPair2 [false, true, false, true]
        ⟨none, .ready, .ready⟩ =
      ⟨some testKeyPair2, .done (.ok ()), .done (.ok ())⟩ ∧
    testKeyPair2 ≠ testKeyPair :=
  ⟨rfl, by decide⟩

theorem checkKeyPurpose_sign_err {k : CryptoKey} (h : ¬ValidSigningKey k) :
    checkKeyPurpose .sign (some k) = .error .keyPurpose := by
  unfold checkKeyPurpose
  exact if_neg h

theorem checkKeyPurpose_verify_err {k : CryptoKey} (h : ¬ValidVerifyKey k) :
    checkKeyPurpose .verify (some k) = .error .keyPurpose := by
  unfold checkKeyPurpose
  exact if_neg h

theorem verify_parse_error (E : CryptoEngine) (J : HostJson)
    (kp : V1PublicKeyPair) (raw : Bytes) (e : PasetoError)
    (hkv : ValidVerifyKey kp.publicKey)
    (hp : _parse_raw_token raw v1Bytes publicBytes 256 = .error e) :
    V1Public.verify E J (V1Public.new (some kp)) raw = .error e := by
  unfold V1Public.verify
  simp [V1Public.new, checkKeyPurpose_verify_ok hkv, hp, Bind.bind, Except.bind]

theorem parse_malformed_count (raw vers purp : Bytes) (slen : Nat)
    (h3 : (splitDots raw).length ≠ 3) (h4 : (splitDots raw).length ≠ 4) :
    _parse_raw_token raw vers purp slen = .error .malformedToken := by
  unfold _parse_raw_token
  rcases hl : splitDots raw with _ | ⟨a, _ | ⟨b, _ | ⟨c, _ | ⟨d, _ | ⟨e, tl⟩⟩⟩⟩⟩
  · rfl
  · rfl
  · rfl
  · exact absurd (by rw [hl]; rfl) h3
  · exact absurd (by rw [hl]; rfl) h4
  · rfl

theorem parse_malformed_bad_body (raw body : Bytes) (fopt : Option Bytes)
    (vers purp : Bytes) (slen : Nat)
    (hl : splitDots raw = [vers, purp, body] ++ fopt.toList)
    (hd : b64decode body = none) :
    _parse_raw_token raw vers purp slen = .error .malformedToken := by
  unfold _parse_raw_token
  cases fopt with
  | none =>
    simp only [Option.toList, List.append_nil] at hl
    rw [hl]
    simp only [_parse_segments, and_self, if_true, hd]
  | some fs =>
    have hl' : splitDots raw = [vers, purp, body, fs] := by simpa using hl
    rw [hl']
    simp only [_parse_segments, and_self, if_true, hd]

theorem parse_malformed_short_body (raw body d : Bytes) (fopt : Option Bytes)
    (vers purp : Bytes) (slen : Nat)
    (hl : splitDots raw = [vers, purp, body] ++ fopt.toList)
    (hd : b64decode body = some d) (hlen : d.length < slen) :
    _parse_raw_token raw vers purp slen = .error .malformedToken := by
  unfold _parse_raw_token
  cases fopt with
  | none =>
    simp only [Option.toList, List.append_nil] at hl
    rw [hl]
    simp only [_parse_segments, and_self, if_true, hd, if_pos hlen]
  | some fs =>
    have hl' : splitDots raw = [vers, purp, body, fs] := by simpa using hl
    rw [hl']
    simp only [_parse_segments, and_self, if_true, hd, if_pos hlen]

/-- C7: on a provider holding a valid verification key, `verify` fails
with `MalformedTokenError` whenever the raw token's dot-separated segment
count is not 3 (no footer) or 4 (with footer), or the body segment is not
valid base64url, or the decoded body is shorter than the provider's fixed
signature length, which the v1/public constructor pins to 256 bytes. -/
theorem v1public_verify_malformed_token
    (E : CryptoEngine) (J : HostJson) (kp : V1PublicKeyPair)
    (hkv : ValidVerifyKey kp.publicKey) :
    (∀ raw : Bytes, (splitDots raw).length ≠ 3 → (splitDots raw).length ≠ 4 →
      V1Public.verify E J (V1Public.new (some kp)) raw =
        .error .malformedToken) ∧
    (∀ (raw body : Bytes) (fopt : Option Bytes),
      splitDots raw = [v1Bytes, publicBytes, body] ++ fopt.toList →
      b64decode body = none →
      V1Public.verify E J (V1Public.new (some kp)) raw =
        .error .malformedToken) ∧
    (∀ (raw body d : Bytes) (fopt : Option Bytes),
      splitDots raw = [v1Bytes, publicBytes, body] ++ fopt.toList →
      b64decode body = some d → d.length < 256 →
      V1Public.verify E J (V1Public.new (some kp)) raw =
        .error .malformedToken) ∧
    (V1Public.new (some kp)).signatureLength = 256 := by
  refine ⟨?_, ?_, ?_, rfl⟩
  · intro raw h3 h4
    exact verify_parse_error E J kp raw _ hkv
      (parse_malformed_count raw v1Bytes publicBytes 256 h3 h4)
  · intro raw body fopt hl hd
    exact verify_parse_error E J kp raw _ hkv
      (parse_malformed_bad_body raw body fopt v1Bytes publicBytes 256 hl hd)
  · intro raw body d fopt hl hd hlen
    exact verify_parse_error E J kp raw _ hkv
      (parse_malformed_short_body raw body d fopt v1Bytes publicBytes 256 hl hd hlen)

/-- Witness for C7: a 1-segment token, a token whose body contains a byte
outside the base64url alphabet, and a token whose decoded body is a
single byte, each rejected as malformed. -/
theorem v1public_verify_malformed_token_witness :
    V1Public.verify testEngine testHostJson (V1Public.new (some testKeyPair))
      [118] = .error .malformedToken ∧
    V1Public.verify testEngine testHostJson (V1Public.new (some testKeyPair))
      (headerV1Public ++ [46, 33]) = .error .malformedToken ∧
    V1Public.verify testEngine testHostJson (V1Public.new (some testKeyPair))
      (headerV1Public ++ [46, 65, 65]) = .error .malformedToken :=
  ⟨(v1public_verify_malformed_token testEngine testHostJson testKeyPair
      (by decide)).1 [118] (by decide) (by decide),
   (v1public_verify_malformed_token testEngine testHostJson testKeyPair
      (by decide)).2.1 (headerV1Public ++ [46, 33]) [33] none (by decide) (by decide),
   (v1public_verify_malformed_token testEngine testHostJson testKeyPair
      (by decide)).2.2.1 (headerV1Public ++ [46, 65, 65]) [65, 65] [0] none
      (by decide) (by decide) (by decide)⟩

/-- C8: `sign` fails with `KeyPurposeError` whenever the provider lacks a
private signing key — an absent key pair, or a key whose type, usage tags
or algorithm do not match signing — and `verify` fails with
`KeyPurposeError` whenever the provider lacks a matching public
verification key.  The guard runs before any other processing: the
failure is uniform over every message, footer and raw token, including
inputs every later stage would reject. -/
theorem v1public_key_purpose_guard (E : CryptoEngine) (J : HostJson) :
    (∀ st : V1Public,
      (st.keyPair = none ∨
        ∃ kp, st.keyPair = some kp ∧ ¬ValidSigningKey kp.privateKey) →
      ∀ (message : JVal) (footer : Bytes),
        V1Public.sign E J st message footer = .error .keyPurpose) ∧
    (∀ st : V1Public,
      (st.keyPair = none ∨
        ∃ kp, st.keyPair = some kp ∧ ¬ValidVerifyKey kp.publicKey) →
      ∀ rawToken : Bytes,
        V1Public.verify E J st rawToken = .error .keyPurpose) := by
  constructor
  · intro st hbad message footer
    unfold V1Public.sign
    rcases hbad with hnone | ⟨kp, hkp, hbadk⟩
    · simp [hnone, checkKeyPurpose, Bind.bind, Except.bind]
    · simp [hkp, checkKeyPurpose_sign_err hbadk, Bind.bind, Except.bind]
  · intro st hbad rawToken
    unfold V1Public.verify
    rcases hbad with hnone | ⟨kp, hkp, hbadk⟩
    · simp [hnone, checkKeyPurpose, Bind.bind, Except.bind]
    · simp [hkp, checkKeyPurpose_verify_err hbadk, Bind.bind, Except.bind]

/-- Witness for C8: signing on a provider whose key pair holds a public
verification key in the private slot fails with `KeyPurposeError` even
for a non-object message, and verifying on a keyless provider fails with
`KeyPurposeError` even for an empty raw token. -/
theorem v1public_key_purpose_guard_witness :
    V1Public.sign testEngine testHostJson
      (V1Public.new (some ⟨testPublicKey, testPublicKey⟩)) (.jnum 5) [46] =
      .error .keyPurpose ∧
    V1Public.verify testEngine testHostJson (V1Public.new none) [] =
      .error .keyPurpose :=
  ⟨(v1public_key_purpose_guard testEngine testHostJson).1
      (V1Public.new (some ⟨testPublicKey, testPublicKey⟩))
      (Or.inr ⟨⟨testPublicKey, testPublicKey⟩, rfl, by decide⟩) (.jnum 5) [46],
   (v1public_key_purpose_guard testEngine testHostJson).2
      (V1Public.new none) (Or.inl rfl) []⟩

/-- C9: `sign` and `verify` never modify provider state: for every
invocation, succeeding or failing, the post-state of the state-passing
forms equals the receiver, so the key pair, signature length, version
and purpose after the call are those before it; only `generateKey`
writes provider state.  The methods' bodies contain no assignment, so
the embedded state transformers return the receiver by construction. -/
theorem v1public_sign_verify_no_state_write (E : CryptoEngine) (J : HostJson)
    (st : V1Public) (message : JVal) (footer rawToken : Bytes) :
    (V1Public.signSt E J st message footer).2 = st ∧
    (V1Public.verifySt E J st rawToken).2 = st ∧
    (V1Public.signSt E J st message footer).2.keyPair = st.keyPair ∧
    (V1Public.signSt E J st message footer).2.signatureLength = st.signatureLength ∧
    (V1Public.signSt E J st message footer).2.version = st.version ∧
    (V1Public.signSt E J st message footer).2.purpose = st.purpose ∧
    (V1Public.verifySt E J st rawToken).2.keyPair = st.keyPair ∧
    (V1Public.verifySt E J st rawToken).2.signatureLength = st.signatureLength ∧
    (V1Public.verifySt E J st rawToken).2.version = st.version ∧
    (V1Public.verifySt E J st rawToken).2.purpose = st.purpose :=
  ⟨rfl, rfl, rfl, rfl, rfl, rfl, rfl, rfl, rfl, rfl⟩

/-- C10: `encrypt` and `decrypt` on a `V1Local` provider, in any state,
never raise an error and never modify provider state: both complete
returning no value (logging a fixed message), as silent-success no-op
stubs rather than failing placeholders. -/
theorem v1local_encrypt_decrypt_noop (st : V1Local) :
    (V1Local.encrypt st).1 = .ok () ∧
    (V1Local.encrypt st).2.1 = st ∧
    (V1Local.decrypt st).1 = .ok () ∧
    (V1Local.decrypt st).2.1 = st :=
  ⟨rfl, rfl, rfl, rfl⟩

end PasetoD
